import Mathlib

/-!
Verification of the cyber-range orchestrator backend (`cyroid`).

Shallow embedding of the Python source under `backend/cyroid/`:
pure fragments of the API handlers and services are translated into
executable Lean definitions, and the specification claims are settled
as theorems about those definitions.

Conventions:
* Python enums become Lean inductive types with the same constructors.
* A FastAPI handler that raises `HTTPException` before mutating the
  database is modelled as a function returning both the HTTP outcome
  and the stored state after the call, so that "state unchanged on
  rejection" is expressible.
* Strings are modelled as `List Char` where character-level scanning
  matters (the MSEL document grammar), and as `String` elsewhere.
-/

namespace Cyroid

/-! ## Data model: status enums (models/range.py, models/vm.py, models/inject.py) -/

/-- `RangeStatus` from `backend/cyroid/models/range.py`. -/
inductive RangeStatus where
  | draft
  | deploying
  | running
  | stopped
  | archived
  | error
deriving DecidableEq, Repr

/-- `VMStatus` from `backend/cyroid/models/vm.py`. -/
inductive VMStatus where
  | pending
  | creating
  | running
  | stopped
  | error
deriving DecidableEq, Repr

/-- `InjectStatus` from `backend/cyroid/models/inject.py`. -/
inductive InjectStatus where
  | pending
  | executing
  | completed
  | failed
  | skipped
deriving DecidableEq, Repr

/-- The outcome of a range lifecycle endpoint, as seen by the HTTP caller:
`ok` is a 2xx response, `badRequest` is the 400 raised by the state guard
(the validation error), `serverError` is the 500 raised when the container
runtime fails inside the `try` block. -/
inductive HttpOutcome where
  | ok
  | badRequest
  | serverError
deriving DecidableEq, Repr

/-! ## Range lifecycle endpoints (api/ranges.py)

Each endpoint is modelled as a function from the stored range status (and a
flag `dockerOk` saying whether the container-runtime calls inside the `try`
block succeed) to the HTTP outcome paired with the range status stored in
the database after the call returns. -/

/-- `deploy_range` (api/ranges.py lines 130-239).
Guard: `if range_obj.status not in [DRAFT, STOPPED, ERROR]: raise 400`.
On the happy path the status is set to `DEPLOYING` and finally `RUNNING`;
if the runtime fails the status is set to `ERROR` and a 500 is raised. -/
def deploy_range (s : RangeStatus) (dockerOk : Bool) : HttpOutcome × RangeStatus :=
  if ¬ (s = .draft ∨ s = .stopped ∨ s = .error) then
    (.badRequest, s)
  else if dockerOk then
    (.ok, .running)
  else
    (.serverError, .error)

/-- `start_range` (api/ranges.py lines 242-279).
Guard: `if range_obj.status != STOPPED: raise 400`. On failure inside the
`try` block the range status is left as it was (no `ERROR` assignment). -/
def start_range (s : RangeStatus) (dockerOk : Bool) : HttpOutcome × RangeStatus :=
  if ¬ (s = .stopped) then
    (.badRequest, s)
  else if dockerOk then
    (.ok, .running)
  else
    (.serverError, s)

/-- `stop_range` (api/ranges.py lines 282-319).
Guard: `if range_obj.status != RUNNING: raise 400`. -/
def stop_range (s : RangeStatus) (dockerOk : Bool) : HttpOutcome × RangeStatus :=
  if ¬ (s = .running) then
    (.badRequest, s)
  else if dockerOk then
    (.ok, .stopped)
  else
    (.serverError, s)

/-- `teardown_range` (api/ranges.py lines 322-369).
Guard: `if range_obj.status == DEPLOYING: raise 400`. -/
def teardown_range (s : RangeStatus) (dockerOk : Bool) : HttpOutcome × RangeStatus :=
  if s = .deploying then
    (.badRequest, s)
  else if dockerOk then
    (.ok, .draft)
  else
    (.serverError, s)

/-! ## MSEL inject execution guard (api/msel.py) -/

/-- The status guard of `execute_inject` (api/msel.py lines 214-218), and the
terminal status written by `InjectService.execute_inject` when the guard
passes.  The source rejects exactly `COMPLETED` ("Inject already executed")
and `EXECUTING` ("Inject already executing"); any other status proceeds to
execution, whose terminal status is `COMPLETED` when every action succeeded
and `FAILED` otherwise (modelled by the flag `allActionsOk`).
Returns the HTTP outcome paired with the inject status stored afterwards. -/
def execute_inject_endpoint (s : InjectStatus) (allActionsOk : Bool) :
    HttpOutcome × InjectStatus :=
  if s = .completed then
    (.badRequest, s)
  else if s = .executing then
    (.badRequest, s)
  else
    (.ok, if allActionsOk then .completed else .failed)

/-- The status guard of `skip_inject` (api/msel.py lines 253-258):
`if inject.status != PENDING: raise 400`, otherwise the status becomes
`SKIPPED`. -/
def skip_inject_endpoint (s : InjectStatus) : HttpOutcome × InjectStatus :=
  if ¬ (s = .pending) then
    (.badRequest, s)
  else
    (.ok, .skipped)

/-! ## Principals (models/user.py) -/

/-- The attributes of a caller that the authorization code reads:
`User.id`, `User.roles` and `User.tags` (the two list properties derived
from `User.attributes` in `backend/cyroid/models/user.py`). -/
structure Principal where
  uid : Nat
  roles : List String
  tags : List String
deriving DecidableEq, Repr

/-- `User.is_admin` (models/user.py): `'admin' in self.roles`. -/
def Principal.is_admin (p : Principal) : Bool :=
  p.roles.contains "admin"

/-- `User.has_any_tag` (models/user.py): `any(t in self.tags for t in tags)`. -/
def Principal.has_any_tag (p : Principal) (ts : List String) : Bool :=
  ts.any (fun t => p.tags.contains t)

/-! ## MSEL endpoint authorization (api/msel.py)

Every MSEL endpoint authorizes by comparing the owning range's
`created_by` with `current_user.id`; none of them consults the caller's
roles.  Each check below is the line
`if range_obj.created_by != current_user.id: raise HTTPException(403, ...)`
of the corresponding handler; `true` means the handler proceeds,
`false` means 403 Forbidden. -/

/-- Ownership check of `import_msel` (api/msel.py lines 63-64). -/
def import_msel_authorized (rangeCreatedBy : Nat) (u : Principal) : Bool :=
  ¬ (rangeCreatedBy ≠ u.uid)

/-- Ownership check of `get_msel` (api/msel.py lines 133-134). -/
def get_msel_authorized (rangeCreatedBy : Nat) (u : Principal) : Bool :=
  ¬ (rangeCreatedBy ≠ u.uid)

/-- Ownership check of `delete_msel` (api/msel.py lines 173-174). -/
def delete_msel_authorized (rangeCreatedBy : Nat) (u : Principal) : Bool :=
  ¬ (rangeCreatedBy ≠ u.uid)

/-- Ownership check of `execute_inject` (api/msel.py lines 211-212). -/
def execute_inject_authorized (rangeCreatedBy : Nat) (u : Principal) : Bool :=
  ¬ (rangeCreatedBy ≠ u.uid)

/-- Ownership check of `skip_inject` (api/msel.py lines 250-251). -/
def skip_inject_authorized (rangeCreatedBy : Nat) (u : Principal) : Bool :=
  ¬ (rangeCreatedBy ≠ u.uid)

/-! ## ABAC visibility filter (api/deps.py)

A tagged resource is represented by its owner id together with the list of
`ResourceTag.tag` rows attached to it. -/

/-- The row predicate produced by `filter_by_visibility` (api/deps.py lines
104-157), evaluated on one resource.  Admins keep every row; a user with no
tags keeps exactly the untagged rows; a user with tags keeps untagged rows
and rows carrying at least one of the user's tags. -/
def filter_by_visibility_keeps (u : Principal) (rtags : List String) : Bool :=
  if u.is_admin then true
  else if u.tags.isEmpty then rtags.isEmpty
  else rtags.isEmpty || rtags.any (fun t => u.tags.contains t)

/-- The complete list predicate of `list_ranges` (api/ranges.py lines
31-61), evaluated on one range row: admins see all ranges; a non-admin sees
a range iff they own it or the range is in the visibility-filtered query
over ranges they do not own. -/
def list_ranges_includes (u : Principal) (owner : Nat) (rtags : List String) : Bool :=
  if u.is_admin then true
  else (owner == u.uid) || (!(owner == u.uid) && filter_by_visibility_keeps u rtags)

/-- `check_resource_access` (api/deps.py lines 160-205): `true` means
access granted, `false` means the 403 `HTTPException` is raised.  The
`owner_id` parameter is optional in the source (`owner_id: UUID = None`);
the guard is `if owner_id and owner_id == current_user.id`. -/
def check_resource_access (u : Principal) (ownerId : Option Nat) (rtags : List String) : Bool :=
  if u.is_admin then true
  else if (match ownerId with | some o => o == u.uid | none => false) then true
  else if rtags.isEmpty then true
  else if u.has_any_tag rtags then true
  else false

/-! ## Single-VM start/stop and range auto-transitions (api/vms.py) -/

/-- The state of one range relevant to the VM endpoints: the stored range
status and the statuses of the VMs belonging to the range, indexed by
position. -/
structure RangeVMs where
  rstatus : RangeStatus
  vms : List VMStatus
deriving DecidableEq, Repr

/-- Effect of a successful `start_vm` (api/vms.py lines 406-425) on VM `i`
of the range: the VM status is set to `RUNNING`, and then — "Update range
status to RUNNING if any VM is running" — the range status is set to
`RUNNING` when it currently is `STOPPED` or `DRAFT`. -/
def start_vm_success (st : RangeVMs) (i : Nat) : RangeVMs :=
  let vms2 := st.vms.set i .running
  { rstatus := if st.rstatus = .stopped ∨ st.rstatus = .draft then .running else st.rstatus,
    vms := vms2 }

/-- Effect of a successful `stop_vm` (api/vms.py lines 472-493) on VM `i`
of the range: the VM status is set to `STOPPED`, and then — "Update range
status to STOPPED if all VMs are stopped" — when the range status is
`RUNNING` and every VM of the range (re-read after the commit) is
`STOPPED`, the range status is set to `STOPPED`. -/
def stop_vm_success (st : RangeVMs) (i : Nat) : RangeVMs :=
  let vms2 := st.vms.set i .stopped
  { rstatus :=
      if st.rstatus = .running ∧ vms2.all (fun v => v == .stopped) then .stopped
      else st.rstatus,
    vms := vms2 }

/-! ## Inject execution (services/inject_service.py) -/

/-- An inject action as stored in `Inject.actions`: a dict with
`action_type` and `parameters`.  `run_command` carries
`{target_vm, command}`, `place_file` carries
`{filename, target_vm, target_path}`; any other `action_type` reaches the
`else` branch of the dispatch. -/
inductive InjAction where
  | run_command (target_vm command : String)
  | place_file (filename target_vm target_path : String)
  | unknown (kind : String)
deriving DecidableEq, Repr

/-- Outcome of `docker.exec_command` for one call: either a normal return
`(exit_code, output)` or a raised exception. -/
inductive ExecOutcome where
  | ok (exit_code : Int) (output : String)
  | raised (msg : String)
deriving DecidableEq, Repr

/-- One entry of the `results` list built by
`InjectService.execute_inject`: a successful command result, a successful
file placement, a result dict containing an `error` key, or the
`{action, error}` entry appended when an exception is caught. -/
inductive ActionResult where
  | cmdResult (exit_code : Int) (output : String)
  | placed (filename path : String)
  | errorResult (msg : String)
  | exceptionRaised (msg : String)
deriving DecidableEq, Repr

/-- An entry counts as successful iff it carries no `error`
(`if 'error' in result: success = False`, and the exception handler also
clears `success`).  Note a `run_command` result with a non-zero exit code
still counts as successful: only the `error` key matters. -/
def ActionResult.isOk : ActionResult → Bool
  | .cmdResult .. => true
  | .placed .. => true
  | .errorResult _ => false
  | .exceptionRaised _ => false

/-- `vm_map` lookup: `vm_map` maps hostname to the VM; here a VM is
represented by its optional `container_id`.  Outer `none` models
`target_vm_name not in vm_map`. -/
def lookupVM (m : List (String × Option String)) (h : String) : Option (Option String) :=
  (m.find? (fun p => p.1 == h)).map (fun p => p.2)

/-- One iteration of the action loop of `InjectService.execute_inject`
(services/inject_service.py lines 38-58), combining `_execute_command` and
`_place_file`.  `oracle c cmd` is the behaviour of
`docker.exec_command(c, cmd)`. -/
def attemptAction (oracle : String → String → ExecOutcome)
    (vmMap : List (String × Option String)) : InjAction → ActionResult
  | .run_command tv cmd =>
      match lookupVM vmMap tv with
      | none => .errorResult ("VM " ++ tv ++ " not found")
      | some none => .errorResult ("VM " ++ tv ++ " has no container")
      | some (some cid) =>
          match oracle cid cmd with
          | .ok ec out => .cmdResult ec out
          | .raised m => .exceptionRaised m
  | .place_file fn tv path =>
      match lookupVM vmMap tv with
      | none => .errorResult ("VM " ++ tv ++ " not found")
      | some none => .errorResult ("VM " ++ tv ++ " has no container")
      | some (some _) => .placed fn path
  | .unknown k => .errorResult ("Unknown action type: " ++ k)

/-- `InjectService.execute_inject` (services/inject_service.py lines
20-65): every action is attempted in order, each result is appended to
`results`, `success` starts `True` and is cleared by any erroneous action;
the terminal status is `COMPLETED` if `success` else `FAILED`, and
`results` is persisted as the execution log (`inject.execution_log =
str(results)`).  Returns the terminal status and the results list. -/
def inject_service_execute (oracle : String → String → ExecOutcome)
    (vmMap : List (String × Option String)) (actions : List InjAction) :
    InjectStatus × List ActionResult :=
  let step := fun (acc : List ActionResult × Bool) (a : InjAction) =>
    let r := attemptAction oracle vmMap a
    (acc.1 ++ [r], acc.2 && r.isOk)
  let res := actions.foldl step ([], true)
  ((if res.2 then InjectStatus.completed else .failed), res.1)

/-! ## VM creation validation (schemas/vm.py, api/vms.py) -/

/-- A VM creation request (`VMCreate` in schemas/vm.py), restricted to the
fields the validation logic reads. -/
structure VMCreateReq where
  range_id : Nat
  network_id : Nat
  template_id : Nat
  hostname : String
  ip_address : String
  cpu : Int
  ram_mb : Int
  disk_gb : Int
deriving DecidableEq, Repr

/-- A network row (`Network` in models/network.py), restricted to the
fields `create_vm` reads. -/
structure NetworkRow where
  nid : Nat
  range_id : Nat
  subnet : String
deriving DecidableEq, Repr

/-- An existing VM row, restricted to the fields the duplicate checks
read. -/
structure VMRow where
  range_id : Nat
  network_id : Nat
  hostname : String
  ip_address : String
deriving DecidableEq, Repr

/-- The database contents `create_vm` consults. -/
structure VmDb where
  ranges : List Nat
  networks : List NetworkRow
  templates : List Nat
  vms : List VMRow
deriving DecidableEq, Repr

/-- Split a character list on a separator character (used for dotted-quad
and CIDR parsing). -/
def splitOnChar (sep : Char) : List Char → List (List Char)
  | [] => [[]]
  | c :: rest =>
      let r := splitOnChar sep rest
      if c = sep then [] :: r
      else match r with
        | [] => [[c]]
        | g :: gs => (c :: g) :: gs

/-- The pydantic pattern of `VMBase.ip_address`
(`^\d{1,3}\.\d{1,3}\.\d{1,3}\.\d{1,3}$`): four groups of one to three
digits separated by dots.  Note the pattern checks only the shape, not
that each octet is below 256. -/
def ip_format_ok (s : String) : Bool :=
  let parts := splitOnChar '.' s.data
  parts.length == 4 &&
    parts.all (fun p => decide (1 ≤ p.length) && decide (p.length ≤ 3) &&
      p.all Char.isDigit)

/-- The field constraints of `VMBase` (schemas/vm.py lines 10-17):
hostname length in [1,63], `ip_address` matching the dotted-quad pattern,
`cpu` in [1,32], `ram_mb` in [512,131072], `disk_gb` in [10,1000].
A request violating any of these is rejected by pydantic with a 422
validation error before the handler runs. -/
def vm_base_valid (r : VMCreateReq) : Bool :=
  decide (1 ≤ r.hostname.length) && decide (r.hostname.length ≤ 63) &&
  ip_format_ok r.ip_address &&
  decide (1 ≤ r.cpu) && decide (r.cpu ≤ 32) &&
  decide (512 ≤ r.ram_mb) && decide (r.ram_mb ≤ 131072) &&
  decide (10 ≤ r.disk_gb) && decide (r.disk_gb ≤ 1000)

/-- `create_vm` (api/vms.py lines 45-102), composed with the pydantic
validation of its request body: verify the range exists, the network
exists and belongs to the range, the template exists, and that neither the
hostname (within the range) nor the IP (within the network) is a
duplicate; then accept.  There is no check that `ip_address` lies inside
the network's subnet. -/
def create_vm (db : VmDb) (r : VMCreateReq) : Except String Unit :=
  if ¬ vm_base_valid r then .error "422 request validation error" else
  if ¬ db.ranges.contains r.range_id then .error "Range not found" else
  match db.networks.find? (fun n => n.nid == r.network_id) with
  | none => .error "Network not found"
  | some n =>
    if n.range_id ≠ r.range_id then .error "Network does not belong to this range" else
    if ¬ db.templates.contains r.template_id then .error "Template not found" else
    if db.vms.any (fun v => v.range_id == r.range_id && v.hostname == r.hostname) then
      .error "Hostname already exists in this range" else
    if db.vms.any (fun v => v.network_id == r.network_id && v.ip_address == r.ip_address) then
      .error "IP address already exists in this network" else
    .ok ()

/-- A VM update request (`VMUpdate` in schemas/vm.py lines 55-62),
restricted to the fields the data-model invariants mention; every field
is optional and absent fields are not applied (`exclude_unset`). -/
structure VMUpdateReq where
  hostname : Option String
  ip_address : Option String
  cpu : Option Int
  ram_mb : Option Int
  disk_gb : Option Int
deriving DecidableEq, Repr

/-- The stored VM row fields that `update_vm` can overwrite. -/
structure StoredVM where
  hostname : String
  ip_address : String
  cpu : Int
  ram_mb : Int
  disk_gb : Int
deriving DecidableEq, Repr

/-- The field constraints of `VMUpdate` (schemas/vm.py lines 55-62): each
present field is validated with the same bounds as on creation —
hostname length in [1,63], dotted-quad `ip_address`, `cpu` in [1,32],
`ram_mb` in [512,131072], `disk_gb` in [10,1000]; an absent field is not
validated. -/
def vm_update_valid (r : VMUpdateReq) : Bool :=
  (match r.hostname with
   | none => true
   | some h => decide (1 ≤ h.length) && decide (h.length ≤ 63)) &&
  (match r.ip_address with
   | none => true
   | some ip => ip_format_ok ip) &&
  (match r.cpu with
   | none => true
   | some c => decide (1 ≤ c) && decide (c ≤ 32)) &&
  (match r.ram_mb with
   | none => true
   | some m => decide (512 ≤ m) && decide (m ≤ 131072)) &&
  (match r.disk_gb with
   | none => true
   | some d => decide (10 ≤ d) && decide (d ≤ 1000))

/-- The field loop of `update_vm`
(`for field, value in update_data.items(): setattr(vm, field, value)`):
only the fields present in the request are overwritten. -/
def apply_update (vm : StoredVM) (r : VMUpdateReq) : StoredVM :=
  { hostname := r.hostname.getD vm.hostname
    ip_address := r.ip_address.getD vm.ip_address
    cpu := r.cpu.getD vm.cpu
    ram_mb := r.ram_mb.getD vm.ram_mb
    disk_gb := r.disk_gb.getD vm.disk_gb }

/-- `update_vm` (api/vms.py lines 116-136), composed with the pydantic
validation of its request body: a 422 for an invalid body, 404 when the
VM does not exist, otherwise the set fields are applied.  As on creation,
nothing checks the (possibly new) `ip_address` against the network
subnet. -/
def update_vm (vmFound : Bool) (vm : StoredVM) (r : VMUpdateReq) : Except String StoredVM :=
  if ¬ vm_update_valid r then .error "422 request validation error" else
  if ¬ vmFound then .error "VM not found" else
  .ok (apply_update vm r)

/-- Value of a dotted-quad IP as a 32-bit number, or `none` when the shape
is wrong.  (Helper for the spec-side subnet membership predicate.) -/
def ipToNat (s : String) : Option Nat :=
  let parts := splitOnChar '.' s.data
  match parts with
  | [a, b, c, d] =>
      if (parts.all (fun p => decide (1 ≤ p.length) && p.all Char.isDigit)) then
        let v := fun (p : List Char) => p.foldl (fun acc ch => 10 * acc + (ch.toNat - 48)) 0
        some (v a * 16777216 + v b * 65536 + v c * 256 + v d)
      else none
  | _ => none

/-- Modelled from the spec: the data-model invariant "primary IP ∈ primary
network's subnet" (spec §3, VM invariants), which has no counterpart in
the source.  An IP is in a CIDR subnet iff its top `prefix` bits agree
with the subnet address's top `prefix` bits. -/
def ip_in_subnet (ip cidr : String) : Bool :=
  match splitOnChar '/' cidr.data with
  | [netpart, prefixpart] =>
      match ipToNat ip, ipToNat (String.mk netpart) with
      | some ipv, some netv =>
          if prefixpart.all Char.isDigit ∧ prefixpart ≠ [] then
            let p := prefixpart.foldl (fun acc ch => 10 * acc + (ch.toNat - 48)) 0
            ipv / 2 ^ (32 - p) == netv / 2 ^ (32 - p)
          else false
      | _, _ => false
  | _ => false

/-! ## ISO cache downloads (api/cache.py)

The Linux-ISO background worker `download_iso` (api/cache.py lines
1178-1228) streams the HTTP body in chunks of `chunk_size = 1024 * 1024`
bytes.  State relevant to the claims: the file at the final cache path
`dest_path` (`fs`, its byte count, `none` when absent) and the tracking
entry `_active_linux_downloads[version]` (`entry`, its `status` string,
`none` when evicted). -/

/-- Worker/endpoint state for one Linux ISO download. -/
structure DlState where
  fs : Option Nat
  entry : Option String
deriving DecidableEq, Repr

/-- `chunk_size=1024 * 1024` of `response.iter_content` in `download_iso`. -/
def linuxChunkSize : Nat := 1024 * 1024

/-- The chunk loop of `download_iso`: at the top of each iteration the
worker checks whether the tracking entry was removed or its `cancelled`
flag was set (`flag i` says whether that check observes a cancellation at
the i-th chunk boundary); if so it removes the partial file at
`dest_path` and deletes the tracking entry.  Otherwise it appends the
chunk to the file at `dest_path` (a zero-length chunk is skipped by
`if chunk:`, which appends nothing either way).  When the loop completes,
the entry status becomes `completed` and — after the ≈3 s grace window —
the entry is evicted, leaving the downloaded file in place. -/
def linuxChunkLoop (flag : Nat → Bool) : Nat → Nat → List Nat → DlState
  | _, written, [] => ⟨some written, none⟩
  | i, written, c :: rest =>
      if flag i then ⟨none, none⟩
      else linuxChunkLoop flag (i + 1) (written + c) rest

/-- Run the Linux ISO download worker against a chunk sequence, with
`flag` giving the cancellation observations at the chunk boundaries. -/
def runLinuxDownload (chunks : List Nat) (flag : Nat → Bool) : DlState :=
  linuxChunkLoop flag 0 0 chunks

/-- The byte count of the file at the final path after each write of an
uninterrupted download, continuing from `written` bytes already written. -/
def linuxChunkStates (written : Nat) : List Nat → List (Option Nat)
  | [] => []
  | c :: rest => some (written + c) :: linuxChunkStates (written + c) rest

/-- The sequence of file states at the final cache path during an
uninterrupted download: `open(dest_path, 'wb')` creates an empty file at
the final path, then each chunk write grows it. -/
def linuxDownloadTrace (chunks : List Nat) : List (Option Nat) :=
  some 0 :: linuxChunkStates 0 chunks

/-- The `except` branch of `download_iso` after `written` bytes: the
partial file at `dest_path` is removed, the entry is marked `failed` and
— after the ≈5 s delay — evicted. -/
def linuxDownloadAbort (_written : Nat) : DlState := ⟨none, none⟩

/-- `get_linux_iso_download_status` (api/cache.py lines 1244-1291): the
active-download entry is consulted first; only when no entry exists is
the file checked, yielding `completed` when present and `not_found`
otherwise. -/
def linux_download_status (st : DlState) : String :=
  match st.entry with
  | some s => s
  | none =>
      match st.fs with
      | some _ => "completed"
      | none => "not_found"

/-- `SUPPORTED_ARCHIVE_EXTENSIONS` (api/cache.py lines 23-27). -/
def SUPPORTED_ARCHIVE_EXTENSIONS : List String :=
  [".zip", ".7z", ".rar",
   ".tar", ".tar.gz", ".tgz", ".tar.bz2", ".tbz2", ".tar.xz", ".txz",
   ".gz", ".gzip", ".bz2", ".xz", ".lzma"]

/-- `is_archive_file` (api/cache.py lines 30-36): lowercase, drop any URL
query string, and test the recognized archive extensions. -/
def is_archive_file (s : String) : Bool :=
  let lower := s.data.map Char.toLower
  let base := match splitOnChar '?' lower with
    | [] => []
    | p :: _ => p
  SUPPORTED_ARCHIVE_EXTENSIONS.any (fun ext => ext.data.isSuffixOf base)

/-- The download-path choice of the custom-ISO worker (api/cache.py lines
1527-1536): "Determine download path (temp file for archives, final path
for ISOs)" — only archive downloads go to a temporary name; a plain ISO
is streamed directly to its final cache path. -/
def custom_download_path (url dest temp : String) : String :=
  if is_archive_file url then temp else dest

/-! ## MSEL document grammar (services/msel_parser.py)

`MSELParser` works on raw text with three compiled regexes:

* `TIME_PATTERN    = ^##\s+T\+(\d+):(\d+)\s+-\s+(.+)$`  (MULTILINE)
* `PLACE_FILE_PATTERN = -\s+Place file:\s+(\S+)\s+on\s+(\S+)\s+at\s+(.+)$`
* `RUN_COMMAND_PATTERN = -\s+Run command on\s+(\S+):\s+(.+)$`

The matchers below implement these patterns over `List Char` text.  `\s`
includes the newline, so a `\s+` run may cross line boundaries; `.` and
`\S` exclude the newline, and with `re.MULTILINE` the trailing `$`
anchors a group at the next newline or at the end of the text.  The
quantifiers are greedy; the only backtracking these patterns can perform
is `\s+` giving one character back to a final `(.+)$` on all-whitespace
tails, and `(\S+)` giving back a trailing `:` before a literal colon. -/

/-- Python `\s` on ASCII text. -/
def pyIsSpace (c : Char) : Bool :=
  c = ' ' || c = '\t' || c = '\n' || c = '\r' || c = '\x0b' || c = '\x0c'

/-- Numeric value of a matched `(\d+)` group (`int(...)` in the source). -/
def digitsVal (l : List Char) : Nat :=
  l.foldl (fun a c => 10 * a + (c.toNat - 48)) 0

/-- Python `str.strip()`: drop leading and trailing whitespace. -/
def pyStrip (l : List Char) : List Char :=
  ((l.dropWhile pyIsSpace).reverse.dropWhile pyIsSpace).reverse

/-- Match a literal fragment of a pattern and return the rest. -/
def stripPrefixLit (lit s : List Char) : Option (List Char) :=
  if lit.isPrefixOf s then some (s.drop lit.length) else none

/-- Match a trailing `\s+(.+)$` of a pattern (greedy, MULTILINE): at least
one whitespace character, then the group — the maximal nonempty run of
non-newline characters, anchored at a newline or at the end.  When the
text ends in whitespace, `\s+` backtracks so that `(.+)` can still take
one final non-newline whitespace character.  Returns the group and the
text after the match. -/
def finalGroup (s : List Char) : Option (List Char × List Char) :=
  let w := s.takeWhile pyIsSpace
  let r := s.dropWhile pyIsSpace
  if w.isEmpty then none
  else if r.isEmpty then
    match (w.drop 1).reverse.dropWhile (fun c => c = '\n') with
    | [] => none
    | c :: keep => some ([c], w.drop (keep.length + 2))
  else
    let g := r.takeWhile (fun c => c ≠ '\n')
    some (g, r.drop g.length)

/-- Try `TIME_PATTERN` at the current position (which `search` only
attempts at the start of a line): `##`, whitespace, `T+`, digits, `:`,
digits, whitespace, `-`, then the title group. -/
def tryTimeAt (s : List Char) : Option (Nat × Nat × List Char) :=
  match s with
  | '#' :: '#' :: r =>
      let w1 := r.takeWhile pyIsSpace
      let r1 := r.dropWhile pyIsSpace
      if w1.isEmpty then none else
      match r1 with
      | 'T' :: '+' :: r2 =>
          let d1 := r2.takeWhile Char.isDigit
          let r3 := r2.dropWhile Char.isDigit
          if d1.isEmpty then none else
          match r3 with
          | ':' :: r4 =>
              let d2 := r4.takeWhile Char.isDigit
              let r5 := r4.dropWhile Char.isDigit
              if d2.isEmpty then none else
              let w2 := r5.takeWhile pyIsSpace
              let r6 := r5.dropWhile pyIsSpace
              if w2.isEmpty then none else
              match r6 with
              | '-' :: r7 =>
                  match finalGroup r7 with
                  | some (title, _) => some (digitsVal d1, digitsVal d2, title)
                  | none => none
              | _ => none
          | _ => none
      | _ => none
  | _ => none

/-- Continue a `TIME_PATTERN.search` after the current position: with
`re.MULTILINE`, `^` matches after every newline. -/
def timeScan : List Char → Option (Nat × Nat × List Char)
  | [] => none
  | c :: rest =>
      if c = '\n' then
        match tryTimeAt rest with
        | some r => some r
        | none => timeScan rest
      else timeScan rest

/-- `TIME_PATTERN.search(section)`: the first line-anchored match. -/
def searchTimeMatch (s : List Char) : Option (Nat × Nat × List Char) :=
  match tryTimeAt s with
  | some r => some r
  | none => timeScan s

/-- Try `PLACE_FILE_PATTERN` at the current position.  Returns the groups
`(filename, target_vm, target_path)` and the total number of characters
the match consumed. -/
def tryPlaceAt (s : List Char) : Option ((List Char × List Char × List Char) × Nat) :=
  match s with
  | '-' :: r1 =>
      let w1 := r1.takeWhile pyIsSpace
      let r2 := r1.dropWhile pyIsSpace
      if w1.isEmpty then none else
      match stripPrefixLit "Place file:".data r2 with
      | none => none
      | some r3 =>
        let w2 := r3.takeWhile pyIsSpace
        let r4 := r3.dropWhile pyIsSpace
        if w2.isEmpty then none else
        let f := r4.takeWhile (fun c => ¬ pyIsSpace c)
        let r5 := r4.dropWhile (fun c => ¬ pyIsSpace c)
        if f.isEmpty then none else
        let w3 := r5.takeWhile pyIsSpace
        let r6 := r5.dropWhile pyIsSpace
        if w3.isEmpty then none else
        match stripPrefixLit "on".data r6 with
        | none => none
        | some r7 =>
          let w4 := r7.takeWhile pyIsSpace
          let r8 := r7.dropWhile pyIsSpace
          if w4.isEmpty then none else
          let hst := r8.takeWhile (fun c => ¬ pyIsSpace c)
          let r9 := r8.dropWhile (fun c => ¬ pyIsSpace c)
          if hst.isEmpty then none else
          let w5 := r9.takeWhile pyIsSpace
          let r10 := r9.dropWhile pyIsSpace
          if w5.isEmpty then none else
          match stripPrefixLit "at".data r10 with
          | none => none
          | some r11 =>
            match finalGroup r11 with
            | some (p, after) => some ((f, hst, p), s.length - after.length)
            | none => none
  | _ => none

/-- `PLACE_FILE_PATTERN.finditer(section)`: scan left to right, trying the
pattern wherever a `-` stands; after a match, continue after its end.
The fuel (initialized to the text length, which every step strictly
consumes) only drives the recursion. -/
def placeScanAux : Nat → List Char → List (List Char × List Char × List Char)
  | 0, _ => []
  | Nat.succ fuel, s =>
      match s with
      | [] => []
      | c :: rest =>
          if c = '-' then
            match tryPlaceAt (c :: rest) with
            | some (g, k) => g :: placeScanAux fuel (rest.drop (k - 1))
            | none => placeScanAux fuel rest
          else placeScanAux fuel rest

/-- All `PLACE_FILE_PATTERN` matches of a section, in text order. -/
def placeScan (s : List Char) : List (List Char × List Char × List Char) :=
  placeScanAux s.length s

/-- Try `RUN_COMMAND_PATTERN` at the current position.  Returns the groups
`(target_vm, command)` and the number of characters consumed.  The
`(\S+):` part makes the greedy `(\S+)` give back the final `:` of the
token, so the token must end in a colon and the host is the token without
it. -/
def tryRunAt (s : List Char) : Option ((List Char × List Char) × Nat) :=
  match s with
  | '-' :: r1 =>
      let w1 := r1.takeWhile pyIsSpace
      let r2 := r1.dropWhile pyIsSpace
      if w1.isEmpty then none else
      match stripPrefixLit "Run command on".data r2 with
      | none => none
      | some r3 =>
        let w2 := r3.takeWhile pyIsSpace
        let r4 := r3.dropWhile pyIsSpace
        if w2.isEmpty then none else
        let token := r4.takeWhile (fun c => ¬ pyIsSpace c)
        let r5 := r4.dropWhile (fun c => ¬ pyIsSpace c)
        if token.isEmpty then none else
        match token.getLast? with
        | some ':' =>
            let hst := token.dropLast
            if hst.isEmpty then none else
            match finalGroup r5 with
            | some (cmd, after) => some ((hst, cmd), s.length - after.length)
            | none => none
        | _ => none
  | _ => none

/-- `RUN_COMMAND_PATTERN.finditer(section)` analogue of `placeScanAux`. -/
def runScanAux : Nat → List Char → List (List Char × List Char)
  | 0, _ => []
  | Nat.succ fuel, s =>
      match s with
      | [] => []
      | c :: rest =>
          if c = '-' then
            match tryRunAt (c :: rest) with
            | some (g, k) => g :: runScanAux fuel (rest.drop (k - 1))
            | none => runScanAux fuel rest
          else runScanAux fuel rest

/-- All `RUN_COMMAND_PATTERN` matches of a section, in text order. -/
def runScan (s : List Char) : List (List Char × List Char) :=
  runScanAux s.length s

/-- `line.startswith('## T+')` in `_split_into_sections`. -/
def isHeaderStart (l : List Char) : Bool :=
  "## T+".data.isPrefixOf l

/-- Python `'\n'.join(...)`. -/
def joinLines : List (List Char) → List Char
  | [] => []
  | [l] => l
  | l :: rest => l ++ '\n' :: joinLines rest

/-- The grouping loop of `_split_into_sections`: lines starting with
`## T+` begin a new section; the running section is emitted when nonempty. -/
def groupSections : List (List Char) → List (List Char) → List (List (List Char))
  | [], current => if current.isEmpty then [] else [current]
  | l :: rest, current =>
      if isHeaderStart l then
        (if current.isEmpty then [] else [current]) ++ groupSections rest [l]
      else groupSections rest (current ++ [l])

/-- `_split_into_sections` (services/msel_parser.py lines 31-47): split the
content on newlines, group the lines at `## T+` headers, and rejoin each
group with newlines. -/
def splitIntoSections (content : List Char) : List (List Char) :=
  (groupSections (splitOnChar '\n' content) []).map joinLines

/-- One parsed inject definition (the dict built by `_parse_section`),
restricted to the fields the verified properties mention; the
`description` field is not modelled. -/
structure ParsedInject where
  sequence_number : Nat
  inject_time_minutes : Nat
  title : String
  actions : List InjAction
deriving DecidableEq, Repr

/-- `_parse_section` (services/msel_parser.py lines 49-94): search the
time pattern (returning `None` without it), then collect **all**
`place_file` matches of the section followed by **all** `run_command`
matches, in that order; `inject_time_minutes = hours * 60 + minutes`;
`title`, `target_path` and `command` are stripped. -/
def parseSection (sec : List Char) (sequence : Nat) : Option ParsedInject :=
  match searchTimeMatch sec with
  | none => none
  | some (hours, minutes, title) =>
      some
        { sequence_number := sequence
          inject_time_minutes := hours * 60 + minutes
          title := String.mk (pyStrip title)
          actions :=
            (placeScan sec).map (fun g =>
              InjAction.place_file (String.mk g.1) (String.mk g.2.1)
                (String.mk (pyStrip g.2.2))) ++
            (runScan sec).map (fun g =>
              InjAction.run_command (String.mk g.1) (String.mk (pyStrip g.2))) }

/-- The loop of `MSELParser.parse`: `enumerate(sections, 1)` — a section
that yields no inject still consumes its sequence number. -/
def parseSectionsFrom : Nat → List (List Char) → List ParsedInject
  | _, [] => []
  | seq, sec :: rest =>
      match parseSection sec seq with
      | some inj => inj :: parseSectionsFrom (seq + 1) rest
      | none => parseSectionsFrom (seq + 1) rest

/-- `MSELParser.parse` (services/msel_parser.py lines 19-29). -/
def mselParse (content : List Char) : List ParsedInject :=
  parseSectionsFrom 1 (splitIntoSections content)

/-! ### Synthetic MSEL documents

The claim quantifies over documents "built from N well-formed sections";
the following synthesizes such documents from structured data, so that
the parse can be compared with the structure it was rendered from. -/

/-- A source action of a synthetic section. -/
inductive SrcAction where
  | place (filename host path : List Char)
  | run (host cmd : List Char)
deriving DecidableEq, Repr

/-- Render an action bullet line. -/
def renderAction : SrcAction → List Char
  | .place f h p => "- Place file: ".data ++ f ++ " on ".data ++ h ++ " at ".data ++ p
  | .run h c => "- Run command on ".data ++ h ++ ": ".data ++ c

/-- A synthetic well-formed section: hour and minute digit strings, a
title, description lines (including any `**Actions:**` marker), and the
action bullets in document order. -/
structure SrcSection where
  hd : List Char
  md : List Char
  title : List Char
  desc : List (List Char)
  actions : List SrcAction
deriving DecidableEq, Repr

/-- Render the `## T+H:MM - title` header line. -/
def renderHeader (s : SrcSection) : List Char :=
  "## T+".data ++ s.hd ++ [':'] ++ s.md ++ " - ".data ++ s.title

/-- The lines of a rendered section: header, then description lines, then
action bullets. -/
def renderSectionLines (s : SrcSection) : List (List Char) :=
  renderHeader s :: (s.desc ++ s.actions.map renderAction)

/-- A rendered section as text (its lines joined by newlines). -/
def sectionText (s : SrcSection) : List Char :=
  joinLines (renderSectionLines s)

/-- A rendered document: the lines of all sections joined by newlines. -/
def renderDoc (ss : List SrcSection) : List Char :=
  joinLines ((ss.map renderSectionLines).flatten)

/-- The `place_file` groups of a section's actions, in document order. -/
def placeGroups (s : SrcSection) : List (List Char × List Char × List Char) :=
  s.actions.filterMap (fun a =>
    match a with
    | .place f h p => some (f, h, p)
    | .run _ _ => none)

/-- The `run_command` groups of a section's actions, in document order. -/
def runGroups (s : SrcSection) : List (List Char × List Char) :=
  s.actions.filterMap (fun a =>
    match a with
    | .place _ _ _ => none
    | .run h c => some (h, c))

/-- The inject the parser is expected to produce for a well-formed
section: its sequence number, `60·H + MM` from the header digits, the
stripped title, and the section's `place_file` actions in document order
followed by its `run_command` actions in document order. -/
def expectedInject (s : SrcSection) (seq : Nat) : ParsedInject :=
  { sequence_number := seq
    inject_time_minutes := digitsVal s.hd * 60 + digitsVal s.md
    title := String.mk (pyStrip s.title)
    actions :=
      (placeGroups s).map (fun g =>
        InjAction.place_file (String.mk g.1) (String.mk g.2.1)
          (String.mk (pyStrip g.2.2))) ++
      (runGroups s).map (fun g =>
        InjAction.run_command (String.mk g.1) (String.mk (pyStrip g.2))) }

/-- The expected injects of a section list, numbered from `seq`. -/
def expectedInjects : Nat → List SrcSection → List ParsedInject
  | _, [] => []
  | seq, s :: rest => expectedInject s seq :: expectedInjects (seq + 1) rest

/-- Well-formedness of a synthetic section: its rendered lines are
newline-free, its description lines do not open a new section, and on its
rendered text the three pattern scans recover exactly the header data and
the structured actions (in particular no description line, title, path or
command accidentally forms or disturbs a match). -/
def sectionWF (s : SrcSection) : Bool :=
  decide (searchTimeMatch (sectionText s) =
    some (digitsVal s.hd, digitsVal s.md, s.title)) &&
  decide (placeScan (sectionText s) = placeGroups s) &&
  decide (runScan (sectionText s) = runGroups s) &&
  (renderSectionLines s).all (fun l => !(l.contains '\n')) &&
  s.desc.all (fun l => !(isHeaderStart l))

end Cyroid

namespace Cyroid

/-! ## Theorems for claims C1, C6, C10 -/

/-- C1: for every range lifecycle request, the operation is accepted only
from the legal source states — `deploy` exactly from Draft, Stopped or
Error; `stop` exactly from Running; `start` exactly from Stopped;
`teardown` from any status except Deploying — and in every other case the
endpoint answers with a 400 validation error and stores the range status
unchanged. -/
theorem range_lifecycle_guards (s : RangeStatus) (d : Bool) :
    ((deploy_range s d).1 ≠ .badRequest ↔ (s = .draft ∨ s = .stopped ∨ s = .error)) ∧
    ((stop_range s d).1 ≠ .badRequest ↔ s = .running) ∧
    ((start_range s d).1 ≠ .badRequest ↔ s = .stopped) ∧
    ((teardown_range s d).1 ≠ .badRequest ↔ s ≠ .deploying) ∧
    ((deploy_range s d).1 = .badRequest → (deploy_range s d).2 = s) ∧
    ((stop_range s d).1 = .badRequest → (stop_range s d).2 = s) ∧
    ((start_range s d).1 = .badRequest → (start_range s d).2 = s) ∧
    ((teardown_range s d).1 = .badRequest → (teardown_range s d).2 = s) := by
  cases s <;> cases d <;> simp [deploy_range, start_range, stop_range, teardown_range]

/-- C6 counterexample: a `failed` inject (and likewise a `skipped` one) is
not rejected by `execute_inject` — the endpoint re-executes it and
overwrites its status — contradicting the claim that every non-Pending
inject is rejected with a validation error and left unchanged. -/
theorem execute_inject_nonpending_accepted :
    (execute_inject_endpoint .failed true).1 = .ok ∧
    (execute_inject_endpoint .failed true).2 = .completed ∧
    (execute_inject_endpoint .skipped true).1 = .ok ∧
    (execute_inject_endpoint .skipped true).2 = .completed := by
  decide

/-- C6 (amended): `execute_inject` rejects an inject with a 400 validation
error, leaving its status unchanged, exactly when its status is Completed
or Executing; injects in status Pending, Failed or Skipped are accepted
for (re-)execution. -/
theorem execute_inject_guard (s : InjectStatus) (ok : Bool) :
    ((execute_inject_endpoint s ok).1 = .badRequest ↔
      (s = .completed ∨ s = .executing)) ∧
    ((execute_inject_endpoint s ok).1 = .badRequest →
      (execute_inject_endpoint s ok).2 = s) := by
  cases s <;> cases ok <;> simp [execute_inject_endpoint]

/-- C10: every MSEL operation (import, get, delete, execute inject, skip
inject) is authorized exclusively by range ownership: the handler proceeds
if and only if the caller's id equals the range's `created_by`, and a
caller holding the `admin` role but not owning the range is still refused
with 403 — the admin role does not bypass ownership on MSEL endpoints. -/
theorem msel_ownership_only (creator : Nat) (u : Principal) :
    (import_msel_authorized creator u = true ↔ u.uid = creator) ∧
    (get_msel_authorized creator u = true ↔ u.uid = creator) ∧
    (delete_msel_authorized creator u = true ↔ u.uid = creator) ∧
    (execute_inject_authorized creator u = true ↔ u.uid = creator) ∧
    (skip_inject_authorized creator u = true ↔ u.uid = creator) ∧
    (u.is_admin = true → u.uid ≠ creator →
      import_msel_authorized creator u = false ∧
      get_msel_authorized creator u = false ∧
      delete_msel_authorized creator u = false ∧
      execute_inject_authorized creator u = false ∧
      skip_inject_authorized creator u = false) := by
  constructor
  · simp [import_msel_authorized, eq_comm]
  constructor
  · simp [get_msel_authorized, eq_comm]
  constructor
  · simp [delete_msel_authorized, eq_comm]
  constructor
  · simp [execute_inject_authorized, eq_comm]
  constructor
  · simp [skip_inject_authorized, eq_comm]
  · intro _ hne
    simp [import_msel_authorized, get_msel_authorized, delete_msel_authorized,
      execute_inject_authorized, skip_inject_authorized]
    exact fun h => hne h.symm

/-- C10 witness: an admin principal who does not own the range is refused by
all five MSEL endpoints; the owner is accepted. -/
theorem msel_ownership_only_witness :
    import_msel_authorized 7 ⟨3, ["admin"], []⟩ = false ∧
    skip_inject_authorized 7 ⟨7, [], []⟩ = true := by
  refine ⟨?_, ?_⟩
  · exact (msel_ownership_only 7 ⟨3, ["admin"], []⟩).2.2.2.2.2
      (by decide) (by decide) |>.1
  · exact ((msel_ownership_only 7 ⟨7, [], []⟩).2.2.2.2.1).2 rfl

/-- C2: a principal P may see a tagged resource R (as decided by the
point-check `check_resource_access` called with R's owner) if and only if
P is an admin, P owns R, R carries no tags, or R and P share at least one
tag; and the list predicate of `list_ranges` selects exactly the rows the
point-check grants. -/
theorem visibility_rule (u : Principal) (owner : Nat) (rtags : List String) :
    (check_resource_access u (some owner) rtags = true ↔
      (u.is_admin = true ∨ owner = u.uid ∨ rtags = [] ∨ ∃ t ∈ rtags, t ∈ u.tags)) ∧
    list_ranges_includes u owner rtags = check_resource_access u (some owner) rtags := by
  have hpoint : check_resource_access u (some owner) rtags = true ↔
      (u.is_admin = true ∨ owner = u.uid ∨ rtags = [] ∨ ∃ t ∈ rtags, t ∈ u.tags) := by
    unfold check_resource_access Principal.has_any_tag
    by_cases ha : u.is_admin = true
    · simp [ha]
    · by_cases ho : owner = u.uid
      · simp [ha, ho]
      · by_cases hr : rtags = []
        · simp [ha, ho, hr]
        · simp [ha, ho, hr, List.any_eq_true]
  have hlist : list_ranges_includes u owner rtags = true ↔
      (u.is_admin = true ∨ owner = u.uid ∨ rtags = [] ∨ ∃ t ∈ rtags, t ∈ u.tags) := by
    unfold list_ranges_includes filter_by_visibility_keeps
    by_cases ha : u.is_admin = true
    · simp [ha]
    · by_cases ho : owner = u.uid
      · simp [ha, ho]
      · by_cases hu : u.tags = []
        · by_cases hr : rtags = [] <;>
            simp [ha, ho, hu, hr, List.any_eq_true, List.isEmpty_iff]
        · by_cases hr : rtags = [] <;>
            simp [ha, ho, hu, hr, List.any_eq_true, List.isEmpty_iff]
  refine ⟨hpoint, ?_⟩
  cases hL : list_ranges_includes u owner rtags <;>
    cases hR : check_resource_access u (some owner) rtags <;> simp_all
  obtain ⟨t, ht, htu⟩ := hlist
  exact hpoint.2.2.2 t ht htu

/-- C5: when a single-VM start succeeds while the owning range is Stopped
or Draft, the range status auto-transitions to Running; when a single-VM
stop succeeds on a Running range, the range auto-transitions to Stopped
exactly when afterwards every VM of the range is Stopped, and stays
Running whenever some sibling VM is still Running. -/
theorem vm_range_auto_transitions (st : RangeVMs) (i : Nat) :
    ((st.rstatus = .stopped ∨ st.rstatus = .draft) →
      (start_vm_success st i).rstatus = .running) ∧
    (st.rstatus = .running →
      (((stop_vm_success st i).rstatus = .stopped ↔
          ∀ v ∈ st.vms.set i VMStatus.stopped, v = .stopped) ∧
        (VMStatus.running ∈ st.vms.set i VMStatus.stopped →
          (stop_vm_success st i).rstatus = .running))) := by
  refine ⟨fun h => by simp [start_vm_success, h], fun h => ⟨?_, fun hmem => ?_⟩⟩
  · cases hall : (st.vms.set i VMStatus.stopped).all (fun v => v == VMStatus.stopped) <;>
      simp [stop_vm_success, h, hall] <;>
      simpa [List.all_eq_true] using hall
  · have hne : ((st.vms.set i VMStatus.stopped).all (fun v => v == VMStatus.stopped)) = false := by
      simp only [List.all_eq_false]
      exact ⟨_, hmem, by decide⟩
    simp [stop_vm_success, h, hne]

/-- C5 witness: starting a VM of a Stopped range turns the range Running;
stopping one of two Running VMs leaves the range Running; stopping the
only Running VM turns the range Stopped. -/
theorem vm_range_auto_transitions_witness :
    (start_vm_success ⟨.stopped, [.stopped]⟩ 0).rstatus = .running ∧
    (stop_vm_success ⟨.running, [.running, .running]⟩ 0).rstatus = .running ∧
    (stop_vm_success ⟨.running, [.running]⟩ 0).rstatus = .stopped :=
  ⟨(vm_range_auto_transitions ⟨.stopped, [.stopped]⟩ 0).1 (Or.inl rfl),
   ((vm_range_auto_transitions ⟨.running, [.running, .running]⟩ 0).2 rfl).2 (by decide),
   ((vm_range_auto_transitions ⟨.running, [.running]⟩ 0).2 rfl).1.mpr (by decide)⟩

/-- Unfolding of the action loop of `InjectService.execute_inject`. -/
theorem inject_exec_foldl (oracle : String → String → ExecOutcome)
    (vmMap : List (String × Option String)) (actions : List InjAction)
    (rs : List ActionResult) (b : Bool) :
    actions.foldl
      (fun (acc : List ActionResult × Bool) (a : InjAction) =>
        let r := attemptAction oracle vmMap a
        (acc.1 ++ [r], acc.2 && r.isOk))
      (rs, b) =
    (rs ++ actions.map (attemptAction oracle vmMap),
      b && actions.all (fun a => (attemptAction oracle vmMap a).isOk)) := by
  induction actions generalizing rs b with
  | nil => simp
  | cons a rest ih => simp [ih, Bool.and_assoc]

/-- C7: for every executed inject, every action in its list is attempted
in order — the persisted results list is exactly the map of the attempt
over the action list, so an erroneous action does not abort later ones —
and the terminal status is Completed if and only if every action
succeeded, otherwise Failed. -/
theorem inject_execution_semantics (oracle : String → String → ExecOutcome)
    (vmMap : List (String × Option String)) (actions : List InjAction) :
    (inject_service_execute oracle vmMap actions).2 =
      actions.map (attemptAction oracle vmMap) ∧
    ((inject_service_execute oracle vmMap actions).1 = .completed ↔
      ∀ a ∈ actions, (attemptAction oracle vmMap a).isOk = true) ∧
    ((inject_service_execute oracle vmMap actions).1 = .completed ∨
      (inject_service_execute oracle vmMap actions).1 = .failed) := by
  simp only [inject_service_execute]
  rw [inject_exec_foldl]
  refine ⟨by simp, ?_, ?_⟩
  · cases hall : actions.all (fun a => (attemptAction oracle vmMap a).isOk) <;>
      simp [hall] <;> simpa [List.all_eq_true] using hall
  · cases hall : actions.all (fun a => (attemptAction oracle vmMap a).isOk) <;> simp [hall]

/-- C9 counterexample: `create_vm` accepts a VM whose primary IP
`10.99.99.99` lies outside the primary network's subnet `10.0.1.0/24` —
the subnet-membership invariant claimed by the spec is not enforced. -/
theorem create_vm_accepts_ip_outside_subnet :
    create_vm ⟨[1], [⟨2, 1, "10.0.1.0/24"⟩], [3], []⟩
        ⟨1, 2, 3, "web", "10.99.99.99", 1, 512, 10⟩ = .ok () ∧
    ip_in_subnet "10.99.99.99" "10.0.1.0/24" = false := by
  exact ⟨rfl, rfl⟩

/-- Bound extraction from a passed `VMUpdate` validation: a present `cpu`
or `ram_mb` field lies within its bounds. -/
theorem vm_update_valid_bounds (r : VMUpdateReq) (h : vm_update_valid r = true) :
    (∀ c, r.cpu = some c → 1 ≤ c ∧ c ≤ 32) ∧
    (∀ m, r.ram_mb = some m → 512 ≤ m ∧ m ≤ 131072) := by
  simp only [vm_update_valid, Bool.and_eq_true] at h
  constructor
  · intro c hc
    have hx := h.1.1.2
    rw [hc] at hx
    simpa using hx
  · intro m hm
    have hx := h.1.2
    rw [hm] at hx
    simpa using hx

/-- C9 (amended): every VM accepted by VM creation satisfies CPU ∈ [1,32]
and RAM ∈ [512 MB, 128 GB], a creation request violating the bounds is
rejected as a validation error, every accepted update of a VM satisfying
the bounds leaves them satisfied, and an update request carrying an
out-of-range CPU or RAM is rejected as a validation error; on neither
path is the primary IP checked against the primary network's subnet —
only its dotted-quad format is validated. -/
theorem vm_create_update_bounds (db : VmDb) (r : VMCreateReq)
    (vm : StoredVM) (u : VMUpdateReq) :
    (create_vm db r = .ok () →
      1 ≤ r.cpu ∧ r.cpu ≤ 32 ∧ 512 ≤ r.ram_mb ∧ r.ram_mb ≤ 131072) ∧
    (¬ (1 ≤ r.cpu ∧ r.cpu ≤ 32 ∧ 512 ≤ r.ram_mb ∧ r.ram_mb ≤ 131072) →
      create_vm db r = .error "422 request validation error") ∧
    (∀ vm2, update_vm true vm u = .ok vm2 →
      (1 ≤ vm.cpu ∧ vm.cpu ≤ 32 ∧ 512 ≤ vm.ram_mb ∧ vm.ram_mb ≤ 131072) →
      1 ≤ vm2.cpu ∧ vm2.cpu ≤ 32 ∧ 512 ≤ vm2.ram_mb ∧ vm2.ram_mb ≤ 131072) ∧
    ((¬ (∀ c, u.cpu = some c → 1 ≤ c ∧ c ≤ 32) ∨
        ¬ (∀ m, u.ram_mb = some m → 512 ≤ m ∧ m ≤ 131072)) →
      ∀ (f : Bool) (vm0 : StoredVM),
        update_vm f vm0 u = .error "422 request validation error") := by
  refine ⟨?_, ?_, ?_, ?_⟩
  · intro h
    have hv : vm_base_valid r = true := by
      by_cases hv : vm_base_valid r = true
      · exact hv
      · rw [create_vm, if_pos hv] at h
        exact absurd h (by simp)
    simp only [vm_base_valid, Bool.and_eq_true, decide_eq_true_eq] at hv
    exact ⟨hv.1.1.1.1.1.2, hv.1.1.1.1.2, hv.1.1.1.2, hv.1.1.2⟩
  · intro hb
    have hv : ¬ vm_base_valid r = true := by
      intro hv
      apply hb
      simp only [vm_base_valid, Bool.and_eq_true, decide_eq_true_eq] at hv
      exact ⟨hv.1.1.1.1.1.2, hv.1.1.1.1.2, hv.1.1.1.2, hv.1.1.2⟩
    rw [create_vm, if_pos hv]
  · intro vm2 hok hpre
    have hv : vm_update_valid u = true := by
      by_cases hv : vm_update_valid u = true
      · exact hv
      · rw [update_vm, if_pos hv] at hok
        exact absurd hok (by simp)
    have hvm2 : vm2 = apply_update vm u := by
      rw [update_vm, if_neg (by simp [hv]), if_neg (by simp)] at hok
      exact (Except.ok.inj hok).symm
    obtain ⟨hcpu, hram⟩ := vm_update_valid_bounds u hv
    subst hvm2
    unfold apply_update
    constructor
    · cases hc : u.cpu with
      | none => simpa [hc] using hpre.1
      | some c => simpa [hc] using (hcpu c hc).1
    constructor
    · cases hc : u.cpu with
      | none => simpa [hc] using hpre.2.1
      | some c => simpa [hc] using (hcpu c hc).2
    constructor
    · cases hm : u.ram_mb with
      | none => simpa [hm] using hpre.2.2.1
      | some m => simpa [hm] using (hram m hm).1
    · cases hm : u.ram_mb with
      | none => simpa [hm] using hpre.2.2.2
      | some m => simpa [hm] using (hram m hm).2
  · intro hb f vm0
    have hv : ¬ vm_update_valid u = true := by
      intro hv
      obtain ⟨hcpu, hram⟩ := vm_update_valid_bounds u hv
      rcases hb with h1 | h2
      · exact h1 hcpu
      · exact h2 hram
    rw [update_vm, if_pos hv]

/-- The chunk loop with no cancellation observed writes every chunk and
finishes with the downloaded file in place and the entry evicted. -/
theorem linux_loop_no_cancel (flag : Nat → Bool) :
    ∀ (chunks : List Nat) (i w : Nat), (∀ j, j < chunks.length → flag (i + j) = false) →
      linuxChunkLoop flag i w chunks = ⟨some (w + chunks.sum), none⟩ := by
  intro chunks
  induction chunks with
  | nil => intro i w _; simp [linuxChunkLoop]
  | cons c rest ih =>
    intro i w h
    have h0 : flag i = false := by simpa using h 0 (by simp)
    simp only [linuxChunkLoop, h0, Bool.false_eq_true, if_false]
    rw [ih (i + 1) (w + c) ?_]
    · simp [List.sum_cons, Nat.add_assoc]
    · intro j hj
      have e : i + 1 + j = i + (j + 1) := by omega
      rw [e]
      exact h (j + 1) (by simpa using Nat.succ_lt_succ hj)

/-- The chunk loop with a cancellation observed at some boundary within
the download removes the partial file and evicts the entry. -/
theorem linux_loop_cancel (flag : Nat → Bool) :
    ∀ (chunks : List Nat) (i w : Nat), (∃ j, j < chunks.length ∧ flag (i + j) = true) →
      linuxChunkLoop flag i w chunks = ⟨none, none⟩ := by
  intro chunks
  induction chunks with
  | nil => rintro i w ⟨j, hj, _⟩; simp at hj
  | cons c rest ih =>
    rintro i w ⟨j, hj, hf⟩
    by_cases h0 : flag i = true
    · simp [linuxChunkLoop, h0]
    · have hfi : flag i = false := by simpa using h0
      cases j with
      | zero => rw [Nat.add_zero] at hf; exact absurd hf h0
      | succ j₀ =>
        simp only [linuxChunkLoop, hfi, Bool.false_eq_true, if_false]
        refine ih (i + 1) (w + c) ⟨j₀, by simpa using hj, ?_⟩
        have e : i + 1 + j₀ = i + (j₀ + 1) := by omega
        rw [e]
        exact hf

/-- The per-write file states of an uninterrupted download are the partial
sums of the chunk sizes. -/
theorem linux_chunk_states_eq (chunks : List Nat) :
    ∀ w, linuxChunkStates w chunks =
      (List.range chunks.length).map (fun i => some (w + (chunks.take (i + 1)).sum)) := by
  induction chunks with
  | nil => intro w; simp [linuxChunkStates]
  | cons c rest ih =>
    intro w
    simp only [linuxChunkStates]
    rw [ih (w + c), List.length_cons, List.range_succ_eq_map, List.map_cons, List.map_map]
    refine congrArg₂ List.cons (by simp) ?_
    apply List.map_congr_left
    intro i _
    simp [Function.comp, List.take_succ_cons, List.sum_cons, Nat.add_assoc]

/-- C4 counterexample: during an in-progress Linux ISO download of two
1 MiB chunks, after the first chunk a file of 1048576 bytes — a strict
prefix of the 2097152-byte download — exists at the final cache path, and
the custom-ISO worker likewise streams a plain (non-archive) ISO directly
to its final path rather than to a temporary name. -/
theorem linux_download_partial_visible :
    (linuxDownloadTrace [1048576, 1048576]).get? 1 = some (some 1048576) ∧
    (1048576 : Nat) < 1048576 + 1048576 ∧
    custom_download_path "http://mirror.example/rocky.iso"
        "/cache/linux-isos/linux-rocky.iso" "/cache/custom-isos/.tmp_rocky.iso"
      = "/cache/linux-isos/linux-rocky.iso" := by
  refine ⟨rfl, by norm_num, rfl⟩

/-- C4 (amended): the download worker streams bytes directly to the final
cache path — the file is created there at size 0 and grows through every
partial sum of the chunk sizes while the download is in progress — and a
file remains at the final path exactly for completed downloads: an
uninterrupted download ends with the full byte count at the final path,
while the failure handler always removes the partial file.  (Only
archive-delivered custom ISOs use a temporary download name.) -/
theorem linux_download_write_path (chunks : List Nat) (flag : Nat → Bool) :
    linuxDownloadTrace chunks =
      (List.range (chunks.length + 1)).map (fun i => some ((chunks.take i).sum)) ∧
    ((∀ j, j < chunks.length → flag j = false) →
      runLinuxDownload chunks flag = ⟨some chunks.sum, none⟩) ∧
    (∀ w, (linuxDownloadAbort w).fs = none) := by
  refine ⟨?_, fun h => ?_, fun _ => rfl⟩
  · unfold linuxDownloadTrace
    rw [linux_chunk_states_eq, List.range_succ_eq_map, List.map_cons, List.map_map]
    refine congrArg₂ List.cons (by simp) ?_
    apply List.map_congr_left
    intro i _
    simp [Function.comp]
  · have := linux_loop_no_cancel flag chunks 0 0 (fun j hj => by simpa using h j hj)
    simpa [runLinuxDownload] using this

/-- C4 witness: a two-chunk download leaves the partial-sum trace at the
final path, and an uncancelled run completes with the full byte count. -/
theorem linux_download_write_path_witness :
    linuxDownloadTrace [3, 4] = [some 0, some 3, some 7] ∧
    runLinuxDownload [3, 4] (fun _ => false) = ⟨some 7, none⟩ :=
  ⟨(linux_download_write_path [3, 4] (fun _ => false)).1.trans rfl,
   (linux_download_write_path [3, 4] (fun _ => false)).2.1 (fun _ _ => rfl)⟩

/-- C8: for every in-flight Linux ISO download (chunks of at most 1 MiB)
whose cancellation flag becomes observable at some chunk boundary before
the download finishes, the worker removes the partial file and evicts the
tracking entry, so afterwards no file exists at the destination path and
the status endpoint reports `not_found`. -/
theorem cancel_download_cleanup (chunks : List Nat) (flag : Nat → Bool) (k : Nat)
    (_hchunk : chunks.all (fun c => c ≤ linuxChunkSize) = true)
    (hk : k < chunks.length) (hflag : flag k = true) :
    runLinuxDownload chunks flag = ⟨none, none⟩ ∧
    linux_download_status (runLinuxDownload chunks flag) = "not_found" := by
  have h1 : runLinuxDownload chunks flag = ⟨none, none⟩ := by
    have := linux_loop_cancel flag chunks 0 0 ⟨k, hk, by simpa using hflag⟩
    simpa [runLinuxDownload] using this
  exact ⟨h1, by rw [h1]; rfl⟩

/-- C8 witness: cancelling a two-chunk 1 MiB download at the second chunk
boundary leaves no file at the destination and status `not_found`. -/
theorem cancel_download_cleanup_witness :
    runLinuxDownload [1048576, 1048576] (fun i => i == 1) = ⟨none, none⟩ ∧
    linux_download_status (runLinuxDownload [1048576, 1048576] (fun i => i == 1))
      = "not_found" :=
  cancel_download_cleanup [1048576, 1048576] (fun i => i == 1) 1
    (by decide) (by decide) (by decide)

/-- A list is a `isPrefixOf` of itself extended on the right. -/
theorem isPrefixOf_append_self (a b : List Char) : a.isPrefixOf (a ++ b) = true := by
  induction a with
  | nil => simp
  | cons c cs ih => simp [ih]

/-- A rendered header line starts a new section under `_split_into_sections`. -/
theorem isHeaderStart_renderHeader (s : SrcSection) :
    isHeaderStart (renderHeader s) = true := by
  unfold isHeaderStart renderHeader
  rw [show "## T+".data ++ s.hd ++ [':'] ++ s.md ++ " - ".data ++ s.title =
      "## T+".data ++ (s.hd ++ [':'] ++ s.md ++ " - ".data ++ s.title) by
    simp [List.append_assoc]]
  exact isPrefixOf_append_self _ _

/-- A rendered action bullet (starting with a dash) never starts a section. -/
theorem isHeaderStart_renderAction (a : SrcAction) :
    isHeaderStart (renderAction a) = false := by
  cases a <;> rfl

/-- Splitting a separator-free list yields one group. -/
theorem splitOnChar_sepFree (sep : Char) :
    ∀ (l : List Char), l.contains sep = false → splitOnChar sep l = [l] := by
  intro l
  induction l with
  | nil => intro _; rfl
  | cons c cs ih =>
    intro h
    rw [List.contains_cons, Bool.or_eq_false_iff] at h
    have hcs : ¬ sep = c := by simpa using h.1
    have hc : ¬ c = sep := fun he => hcs he.symm
    simp [splitOnChar, hc, ih h.2]

/-- Splitting peels a separator-free group off the front. -/
theorem splitOnChar_append (sep : Char) :
    ∀ (l t : List Char), l.contains sep = false →
      splitOnChar sep (l ++ sep :: t) = l :: splitOnChar sep t := by
  intro l
  induction l with
  | nil => intro t _; simp [splitOnChar]
  | cons c cs ih =>
    intro t h
    rw [List.contains_cons, Bool.or_eq_false_iff] at h
    have hcs : ¬ sep = c := by simpa using h.1
    have hc : ¬ c = sep := fun he => hcs he.symm
    simp [splitOnChar, hc, ih t h.2]

/-- Splitting on newlines inverts joining newline-free lines. -/
theorem splitOnChar_joinLines :
    ∀ (lines : List (List Char)), lines ≠ [] →
      (∀ l ∈ lines, l.contains '\n' = false) →
      splitOnChar '\n' (joinLines lines) = lines := by
  intro lines
  induction lines with
  | nil => intro h _; exact absurd rfl h
  | cons a rest ih =>
    intro _ hall
    cases rest with
    | nil => exact splitOnChar_sepFree '\n' a (hall a (by simp))
    | cons b rest2 =>
      rw [show joinLines (a :: b :: rest2) = a ++ '\n' :: joinLines (b :: rest2) from rfl,
        splitOnChar_append '\n' a _ (hall a (by simp)),
        ih (by simp) (fun l hl => hall l (by simp [hl]))]

/-- The grouping loop accumulates non-header lines into the running
section. -/
theorem groupSections_nonheader :
    ∀ (ds rest current : _), (∀ l ∈ ds, isHeaderStart l = false) →
      groupSections (ds ++ rest) current = groupSections rest (current ++ ds) := by
  intro ds
  induction ds with
  | nil => intro rest current _; simp
  | cons d ds2 ih =>
    intro rest current h
    have hd : isHeaderStart d = false := h d (by simp)
    show groupSections (d :: (ds2 ++ rest)) current = _
    rw [groupSections, hd]
    simp only [Bool.false_eq_true, if_false]
    rw [ih rest (current ++ [d]) (fun l hl => h l (by simp [hl]))]
    simp [List.append_assoc]

/-- The non-header lines of a well-formed rendered section: description
lines by well-formedness, action bullets because they start with a dash. -/
theorem sectionTail_nonheader (s : SrcSection) (h : sectionWF s = true) :
    ∀ l ∈ s.desc ++ s.actions.map renderAction, isHeaderStart l = false := by
  intro l hl
  rcases List.mem_append.mp hl with h1 | h2
  · have hx : s.desc.all (fun l => !(isHeaderStart l)) = true := by
      simp only [sectionWF, Bool.and_eq_true] at h
      exact h.2
    rw [List.all_eq_true] at hx
    simpa using hx l h1
  · rcases List.mem_map.mp h2 with ⟨a, -, rfl⟩
    exact isHeaderStart_renderAction a

/-- Grouping the rendered lines of well-formed sections recovers the
per-section line lists (with a nonempty section under construction). -/
theorem groupSections_sections :
    ∀ (ss : List SrcSection) (current : List (List Char)), current ≠ [] →
      (∀ s ∈ ss, sectionWF s = true) →
      groupSections ((ss.map renderSectionLines).flatten) current =
        current :: ss.map renderSectionLines := by
  intro ss
  induction ss with
  | nil =>
    intro current hc _
    simp [groupSections, List.isEmpty_iff, hc]
  | cons s rest ih =>
    intro current hc hall
    have hce : current.isEmpty = false := by
      simp [List.isEmpty_iff, hc]
    show groupSections (renderSectionLines s ++ (rest.map renderSectionLines).flatten)
        current = _
    rw [show renderSectionLines s =
        renderHeader s :: (s.desc ++ s.actions.map renderAction) from rfl,
      List.cons_append]
    simp only [groupSections, isHeaderStart_renderHeader s, eq_self_iff_true, if_true,
      hce, Bool.false_eq_true, if_false]
    rw [groupSections_nonheader _ _ _ (sectionTail_nonheader s (hall s (by simp))),
      show [renderHeader s] ++ (s.desc ++ s.actions.map renderAction) =
        renderHeader s :: (s.desc ++ s.actions.map renderAction) from rfl,
      ih (renderHeader s :: (s.desc ++ s.actions.map renderAction))
        (by simp) (fun s2 hs2 => hall s2 (by simp [hs2]))]
    rfl

/-- Unpacking of the well-formedness checks of a synthetic section. -/
theorem sectionWF_parts (s : SrcSection) (h : sectionWF s = true) :
    searchTimeMatch (sectionText s) = some (digitsVal s.hd, digitsVal s.md, s.title) ∧
    placeScan (sectionText s) = placeGroups s ∧
    runScan (sectionText s) = runGroups s ∧
    (renderSectionLines s).all (fun l => !(l.contains '\n')) = true := by
  simp only [sectionWF, Bool.and_eq_true, decide_eq_true_eq] at h
  exact ⟨h.1.1.1.1, h.1.1.1.2, h.1.1.2, h.1.2⟩

/-- `_parse_section` on a well-formed rendered section yields the
expected inject. -/
theorem parseSection_rendered (s : SrcSection) (seq : Nat) (h : sectionWF s = true) :
    parseSection (sectionText s) seq = some (expectedInject s seq) := by
  obtain ⟨ht, hp, hr, -⟩ := sectionWF_parts s h
  unfold parseSection
  rw [ht, hp, hr]
  rfl

/-- The parse loop over well-formed rendered sections. -/
theorem parseSectionsFrom_rendered :
    ∀ (ss : List SrcSection) (seq : Nat), (∀ s ∈ ss, sectionWF s = true) →
      parseSectionsFrom seq (ss.map sectionText) = expectedInjects seq ss := by
  intro ss
  induction ss with
  | nil => intro seq _; rfl
  | cons s rest ih =>
    intro seq h
    show parseSectionsFrom seq (sectionText s :: rest.map sectionText) = _
    rw [parseSectionsFrom, parseSection_rendered s seq (h s (by simp))]
    rw [ih (seq + 1) (fun s2 hs2 => h s2 (by simp [hs2]))]
    rfl

/-- C3 counterexample: a well-formed section whose `Run command` bullet
precedes its `Place file` bullet parses into an action list with the
`place_file` action first — the parser collects all `place_file` matches
before all `run_command` matches, so document order across action kinds
is not preserved. -/
theorem msel_parse_reorders_actions :
    mselParse ("## T+0:00 - Setup\n- Run command on web: echo hello\n- Place file: a.exe on db at /tmp/a.exe").data =
      [⟨1, 0, "Setup",
        [InjAction.place_file "a.exe" "db" "/tmp/a.exe",
         InjAction.run_command "web" "echo hello"]⟩] ∧
    [InjAction.place_file "a.exe" "db" "/tmp/a.exe",
     InjAction.run_command "web" "echo hello"] ≠
    [InjAction.run_command "web" "echo hello",
     InjAction.place_file "a.exe" "db" "/tmp/a.exe"] := by
  exact ⟨by decide, by decide⟩

/-- C3 (amended): for every document built from N well-formed
`## T+H:MM - title` sections, `parse` returns exactly N injects, numbered
from 1 in document order, each with `inject_time_minutes = 60·H + MM`;
each inject's action list consists of the section's `place_file` actions
in document order followed by its `run_command` actions in document order
(not the interleaved document order of the bullet lines). -/
theorem msel_parse_sections (ss : List SrcSection)
    (hwf : ∀ s ∈ ss, sectionWF s = true) :
    mselParse (renderDoc ss) = expectedInjects 1 ss := by
  cases ss with
  | nil => rfl
  | cons s rest =>
    unfold mselParse splitIntoSections renderDoc
    have hlines : ∀ l ∈ ((s :: rest).map renderSectionLines).flatten,
        l.contains '\n' = false := by
      intro l hl
      rcases List.mem_flatten.mp hl with ⟨sec, hsec, hlsec⟩
      rcases List.mem_map.mp hsec with ⟨s2, hs2, rfl⟩
      have hx := (sectionWF_parts s2 (hwf s2 hs2)).2.2.2
      rw [List.all_eq_true] at hx
      simpa using hx l hlsec
    have hne : ((s :: rest).map renderSectionLines).flatten ≠ [] := by
      simp [renderSectionLines]
    rw [splitOnChar_joinLines _ hne hlines]
    have hsplit : groupSections (((s :: rest).map renderSectionLines).flatten) []
        = (s :: rest).map renderSectionLines := by
      show groupSections (renderSectionLines s ++ (rest.map renderSectionLines).flatten)
          [] = _
      rw [show renderSectionLines s =
          renderHeader s :: (s.desc ++ s.actions.map renderAction) from rfl,
        List.cons_append]
      simp only [groupSections, isHeaderStart_renderHeader s, eq_self_iff_true, if_true,
        List.isEmpty_nil, List.nil_append]
      rw [groupSections_nonheader _ _ _ (sectionTail_nonheader s (hwf s (by simp))),
        show [renderHeader s] ++ (s.desc ++ s.actions.map renderAction) =
          renderHeader s :: (s.desc ++ s.actions.map renderAction) from rfl,
        groupSections_sections rest
          (renderHeader s :: (s.desc ++ s.actions.map renderAction))
          (by simp) (fun s2 hs2 => hwf s2 (by simp [hs2]))]
      rfl
    rw [hsplit, List.map_map]
    exact parseSectionsFrom_rendered (s :: rest) 1 hwf

/-- C3 witness: a two-section document — section 1 at `T+0:00` with two
description lines and one `run_command`, section 2 at `T+1:30` with one
`place_file` — parses to the two expected injects with times 0 and 90. -/
theorem msel_parse_sections_witness :
    mselParse (renderDoc
      [⟨['0'], ['0', '0'], "Setup".data,
        ["Initial setup.".data, "**Actions:**".data],
        [SrcAction.run "web".data "echo hello".data]⟩,
       ⟨['1'], ['3', '0'], "Second".data, [],
        [SrcAction.place "a.exe".data "db".data "/tmp/a.exe".data]⟩]) =
      [⟨1, 0, "Setup", [InjAction.run_command "web" "echo hello"]⟩,
       ⟨2, 90, "Second", [InjAction.place_file "a.exe" "db" "/tmp/a.exe"]⟩] :=
  (msel_parse_sections _ (by decide)).trans (by decide)

/-- C9 witness: a creation request with CPU 1 and RAM 512 is accepted and
satisfies the bounds; a creation request with CPU 0 is rejected; an
accepted update setting CPU to 2 on an in-bounds VM stays in bounds; an
update request with CPU 0 is rejected as a validation error. -/
theorem vm_create_update_bounds_witness :
    (1 ≤ (1 : Int) ∧ (1 : Int) ≤ 32 ∧ 512 ≤ (512 : Int) ∧ (512 : Int) ≤ 131072) ∧
    create_vm ⟨[1], [⟨2, 1, "10.0.1.0/24"⟩], [3], []⟩
        ⟨1, 2, 3, "web", "10.0.1.50", 0, 512, 10⟩ = .error "422 request validation error" ∧
    (1 ≤ (2 : Int) ∧ (2 : Int) ≤ 32 ∧ 512 ≤ (512 : Int) ∧ (512 : Int) ≤ 131072) ∧
    update_vm true ⟨"web", "10.0.1.50", 1, 512, 10⟩ ⟨none, none, some 0, none, none⟩
      = .error "422 request validation error" :=
  ⟨(vm_create_update_bounds ⟨[1], [⟨2, 1, "10.0.1.0/24"⟩], [3], []⟩
      ⟨1, 2, 3, "web", "10.0.1.50", 1, 512, 10⟩
      ⟨"web", "10.0.1.50", 1, 512, 10⟩ ⟨none, none, some 2, none, none⟩).1 rfl,
   (vm_create_update_bounds ⟨[1], [⟨2, 1, "10.0.1.0/24"⟩], [3], []⟩
      ⟨1, 2, 3, "web", "10.0.1.50", 0, 512, 10⟩
      ⟨"web", "10.0.1.50", 1, 512, 10⟩ ⟨none, none, some 2, none, none⟩).2.1 (by decide),
   (vm_create_update_bounds ⟨[1], [⟨2, 1, "10.0.1.0/24"⟩], [3], []⟩
      ⟨1, 2, 3, "web", "10.0.1.50", 1, 512, 10⟩
      ⟨"web", "10.0.1.50", 1, 512, 10⟩ ⟨none, none, some 2, none, none⟩).2.2.1
     ⟨"web", "10.0.1.50", 2, 512, 10⟩ rfl (by decide),
   (vm_create_update_bounds ⟨[1], [⟨2, 1, "10.0.1.0/24"⟩], [3], []⟩
      ⟨1, 2, 3, "web", "10.0.1.50", 1, 512, 10⟩
      ⟨"web", "10.0.1.50", 1, 512, 10⟩ ⟨none, none, some 0, none, none⟩).2.2.2
     (Or.inl (by intro h; exact absurd ((h 0 rfl).1) (by decide)))
     true ⟨"web", "10.0.1.50", 1, 512, 10⟩⟩

end Cyroid
